import Mathlib

/-!
Verification of the OpenCL batch file hasher (`hasher.py`).

This file gives a shallow embedding of the hashing module:

* the SHA-1 OpenCL kernel `sha1_kernel` (the string `kernel_code`,
  hasher.py lines 11-112), embedded as pure functions on `Nat` with
  32-bit arithmetic written as explicit `% 4294967296`;
* the host-side helpers `select_best_device` (lines 122-126),
  `generate_unique_filename` (lines 129-135), `perform_hashing`
  (lines 153-181), and the device-enumeration and device-override
  logic of `main` (lines 231-246);
* a FIPS-180 reference SHA-1, clearly marked as modelled from the
  specification rather than from the code, used to compare the
  kernel against the standard algorithm.

Bytes are `Nat` values below 256; words are `Nat` values below 2^32.
The kernel input buffer is modelled as a function `Nat → Nat` from byte
position to byte value, together with an explicit length, mirroring the
`__global const uchar *input` / `lengths[idx]` pair of the kernel.
-/

namespace Hasher

/-- The modulus of the OpenCL `uint` type: 2^32. -/
def U32 : Nat := 4294967296

/-- Left rotation of a 32-bit word, as the kernel writes it:
`(x << n) | (x >> (32 - n))` on `uint`. -/
def rotl (n x : Nat) : Nat := ((x <<< n) % U32) ||| (x >>> (32 - n))

/-- Byte `i` (with `56 ≤ i ≤ 63`) of the length suffix which the kernel
writes into the final chunk.  The kernel computes `uint bit_len = length * 8`
— a 32-bit quantity, so the bit length is reduced modulo 2^32 — and then
stores `bit_len & 0xFF` into `chunk[63 - i]`, shifting right by 8 each step
(hasher.py lines 42-48). -/
def lengthFieldByte (length i : Nat) : Nat :=
  (((length * 8) % U32) >>> (8 * (63 - i))) &&& 255

/-- Byte `i` of chunk number `chunkIdx`, as assembled by the kernel
(hasher.py lines 30-48): message bytes below `length`, `0x80` at position
`length`, zero beyond; in the chunk with index `length / 64` the final
eight bytes are then overwritten with the length field. -/
def chunkByte (input : Nat → Nat) (length chunkIdx i : Nat) : Nat :=
  let pos := chunkIdx * 64 + i
  let base := if pos < length then input pos else if pos = length then 128 else 0
  if chunkIdx = length / 64 ∧ 56 ≤ i then lengthFieldByte length i else base

/-- Message-schedule word `w[i]` for `i < 16`: four chunk bytes packed
big-endian (hasher.py lines 51-56). -/
def scheduleWord (chunk : Nat → Nat) (i : Nat) : Nat :=
  (chunk (4 * i) <<< 24) ||| (chunk (4 * i + 1) <<< 16) |||
  (chunk (4 * i + 2) <<< 8) ||| chunk (4 * i + 3)

/-- One step of the schedule extension, operating on the reversed list of
words produced so far: `w[i] = rotl1 (w[i-3] ^ w[i-8] ^ w[i-14] ^ w[i-16])`
(hasher.py lines 59-62). -/
def extendSchedule (ws : List Nat) : List Nat :=
  rotl 1 (ws.getD 2 0 ^^^ ws.getD 7 0 ^^^ ws.getD 13 0 ^^^ ws.getD 15 0) :: ws

/-- The full 80-word message schedule of one chunk. -/
def schedule (chunk : Nat → Nat) : List Nat :=
  ((List.range 64).foldl (fun ws _ => extendSchedule ws)
    ((List.range 16).map (scheduleWord chunk)).reverse).reverse

/-- The rotating working state `(a, b, c, d, e)` of the compression loop. -/
structure Sha1State where
  a : Nat
  b : Nat
  c : Nat
  d : Nat
  e : Nat
deriving Repr, DecidableEq

/-- The five running hash words `h0 .. h4`. -/
structure Hash5 where
  h0 : Nat
  h1 : Nat
  h2 : Nat
  h3 : Nat
  h4 : Nat
deriving Repr, DecidableEq

/-- Round constant `k_temp` selected by round index (hasher.py lines 74-86). -/
def kConst (i : Nat) : Nat :=
  if i < 20 then 0x5A827999 else if i < 40 then 0x6ED9EBA1
  else if i < 60 then 0x8F1BBCDC else 0xCA62C1D6

/-- Round function `f` selected by round index (hasher.py lines 74-86);
the `uint` complement `~b` is `b ^^^ 0xFFFFFFFF` for `b < 2^32`. -/
def fFun (i b c d : Nat) : Nat :=
  if i < 20 then (b &&& c) ||| ((b ^^^ 4294967295) &&& d)
  else if i < 40 then b ^^^ c ^^^ d
  else if i < 60 then (b &&& c) ||| (b &&& d) ||| (c &&& d)
  else b ^^^ c ^^^ d

/-- One round of the main loop (hasher.py lines 87-92). -/
def roundStep (st : Sha1State) (iw : Nat × Nat) : Sha1State :=
  let temp := (rotl 5 st.a + fFun iw.1 st.b st.c st.d + st.e + kConst iw.1 + iw.2) % U32
  ⟨temp, st.a, rotl 30 st.b, st.c, st.d⟩

/-- Compression of one 64-byte chunk into the running hash
(hasher.py lines 64-100). -/
def compressChunk (chunk : Nat → Nat) (h : Hash5) : Hash5 :=
  let st := ((List.range 80).zip (schedule chunk)).foldl roundStep
    ⟨h.h0, h.h1, h.h2, h.h3, h.h4⟩
  ⟨(h.h0 + st.a) % U32, (h.h1 + st.b) % U32, (h.h2 + st.c) % U32,
   (h.h3 + st.d) % U32, (h.h4 + st.e) % U32⟩

/-- The fixed SHA-1 initial state (hasher.py lines 14-18). -/
def initHash : Hash5 := ⟨0x67452301, 0xEFCDAB89, 0x98BADCFE, 0x10325476, 0xC3D2E1F0⟩

/-- Number of chunk iterations of the kernel loop
`for (chunk_idx = 0; chunk_idx <= length / 64; chunk_idx++)`
(hasher.py line 29). -/
def numChunks (length : Nat) : Nat := length / 64 + 1

/-- The four big-endian output bytes of one hash word
(hasher.py lines 105-110); the store into `uchar` reduces modulo 256. -/
def wordBytes (x : Nat) : List Nat :=
  [(x >>> 24) % 256, (x >>> 16) % 256, (x >>> 8) % 256, x % 256]

/-- The 20 output bytes of the final hash state (hasher.py lines 103-110). -/
def hashBytes (h : Hash5) : List Nat :=
  wordBytes h.h0 ++ wordBytes h.h1 ++ wordBytes h.h2 ++ wordBytes h.h3 ++ wordBytes h.h4

/-- The digest produced by one invocation of the OpenCL kernel
`sha1_kernel` on a message given as a byte-lookup function and a length
(hasher.py lines 11-112, for the single work item `idx = 0`). -/
def sha1_kernel (input : Nat → Nat) (length : Nat) : List Nat :=
  hashBytes ((List.range (numChunks length)).foldl
    (fun h ci => compressChunk (chunkByte input length ci) h) initHash)

/-- Modelled from the spec: the eight-byte big-endian encoding of the full
64-bit message bit length, as FIPS-180 prescribes for the padding suffix.
This is deliberately NOT the kernel's 32-bit-truncated computation. -/
def refLenBytes (L : Nat) : List Nat :=
  (List.range 8).map (fun i => ((L * 8) >>> (8 * (7 - i))) % 256)

/-- Modelled from the spec: FIPS-180 padding — the message, one `0x80`
byte, the least number of zero bytes making the total length congruent to
56 modulo 64, then the 64-bit big-endian bit length. -/
def refPad (msg : List Nat) : List Nat :=
  msg ++ [128] ++ List.replicate ((119 - msg.length % 64) % 64) 0 ++ refLenBytes msg.length

/-- Modelled from the spec: the FIPS-180 reference SHA-1 digest — pad the
message, then compress each 64-byte block of the padded message in order.
The per-block compression (schedule, round functions, constants, final
addition) is the standard one, shared with the kernel embedding above,
where the kernel transcribes it correctly; only chunk assembly and padding
differ. -/
def sha1Reference (msg : List Nat) : List Nat :=
  let p := refPad msg
  hashBytes ((List.range (p.length / 64)).foldl
    (fun h ci => compressChunk (fun i => p.getD (ci * 64 + i) 0) h) initHash)

/-- Hexadecimal digit character, lowercase, as Python `format(byte, '02x')`
produces. -/
def hexDigitChar (n : Nat) : Char := if n < 10 then Char.ofNat (48 + n) else Char.ofNat (87 + n)

/-- Two-character lowercase hex rendering of one byte, as
`format(byte, '02x')` in `perform_hashing` (hasher.py line 178). -/
def byteHex (b : Nat) : String := String.mk [hexDigitChar (b / 16), hexDigitChar (b % 16)]

/-- Concatenated hex rendering of a byte list, as
`''.join(format(byte, '02x') for byte in output_data)` (hasher.py line 178). -/
def bytesHex (bs : List Nat) : String := String.join (bs.map byteHex)

/-- The hex digest the program computes for a file whose content is the
given byte list: the kernel digest of the bytes, rendered in hex. -/
def sha1KernelHex (msg : List Nat) : String :=
  bytesHex (sha1_kernel (fun i => msg.getD i 0) msg.length)

/-- Hex rendering of the FIPS-180 reference digest. -/
def sha1ReferenceHex (msg : List Nat) : String := bytesHex (sha1Reference msg)

/-- A compute device as the selection code sees it: display name, vendor
string, and total global memory size (`d.global_mem_size`, `d.vendor`). -/
structure ComputeDevice where
  name : String
  vendor : String
  global_mem_size : Nat
deriving Repr, DecidableEq

/-- Python `str.lower` on one character; the vendor strings involved are
ASCII, where lowering maps the letters `A`-`Z` (codes 65-90) to codes
97-122. -/
def lowerChar (c : Char) : Char :=
  if 65 ≤ c.toNat ∧ c.toNat ≤ 90 then Char.ofNat (c.toNat + 32) else c

/-- Python `str.startswith`, expressed on character lists. -/
def listStartsWith : List Char → List Char → Bool
  | _, [] => true
  | [], _ :: _ => false
  | c :: cs, p :: ps => c == p && listStartsWith cs ps

/-- Python `d.vendor.lower().startswith(p)` (hasher.py lines 124-125). -/
def vendorStarts (d : ComputeDevice) (p : String) : Bool :=
  listStartsWith (d.vendor.toList.map lowerChar) p.toList

/-- Python `d.vendor.lower().startswith('nvidia')` (hasher.py line 124). -/
def vendorIsNvidia (d : ComputeDevice) : Bool := vendorStarts d "nvidia"

/-- Python `d.vendor.lower().startswith('amd')` (hasher.py line 124). -/
def vendorIsAmd (d : ComputeDevice) : Bool := vendorStarts d "amd"

/-- Python `d.vendor.lower().startswith('intel')` (hasher.py line 125). -/
def vendorIsIntel (d : ComputeDevice) : Bool := vendorStarts d "intel"

/-- The sort key of `select_best_device` (hasher.py lines 123-125), the
Python tuple `(-mem, nvidia?, amd?, intel?)` compared lexicographically
with `False < True`, packed order-isomorphically into one integer: the
three booleans contribute a value in `[0, 8)`, so weighting the negated
memory by 8 reproduces the lexicographic order exactly. -/
def sortKeyInt (d : ComputeDevice) : Int :=
  -(d.global_mem_size : Int) * 8 + (cond (vendorIsNvidia d) 4 0) +
    (cond (vendorIsAmd d) 2 0) + (cond (vendorIsIntel d) 1 0)

/-- The comparison used to model Python `sorted` on the key above. -/
def devRel (a b : ComputeDevice) : Prop := sortKeyInt a ≤ sortKeyInt b

instance : DecidableRel devRel := fun a b => Int.decLe (sortKeyInt a) (sortKeyInt b)

instance : IsTotal ComputeDevice devRel := ⟨fun a b => Int.le_total (sortKeyInt a) (sortKeyInt b)⟩

instance : IsTrans ComputeDevice devRel := ⟨fun _ _ _ hab hbc => le_trans hab hbc⟩

/-- The list `sorted(devices, key=...)` of `select_best_device`
(hasher.py lines 123-125).  Python `sorted` is a stable sort by the key;
a stable sort of a fixed list by a fixed total preorder has a unique
output, so modelling it with insertion sort (also stable) is exact. -/
def sortedDevices (devices : List ComputeDevice) : List ComputeDevice :=
  devices.insertionSort devRel

/-- Device selection heuristic `select_best_device` (hasher.py lines
122-126): the first element of the sorted list.  `none` corresponds to the
`IndexError` Python would raise on an empty list, which `main` rules out
before calling. -/
def select_best_device (devices : List ComputeDevice) : Option ComputeDevice :=
  (sortedDevices devices).head?

/-- The fatal configuration errors of `main`, named as in the spec
taxonomy.  `noPlatforms` is the message `No OpenCL platforms found.`,
`noDevices` the message `No OpenCL devices found.`, `invalidDevice` the
message `Device ID ... is out of range.`, and `outputNameExhausted` the
`FileExistsError` of `generate_unique_filename`. -/
inductive MainError where
  | noPlatforms
  | noDevices
  | invalidDevice
  | outputNameExhausted
deriving Repr, DecidableEq

/-- Device list acquisition in `main` (hasher.py lines 231-238):
`platforms = cl.get_platforms()`, fail if empty, then
`devices = platforms[0].get_devices()` — only the FIRST platform is
consulted — and fail if that list is empty. -/
def obtainDevices (platforms : List (List ComputeDevice)) :
    Except MainError (List ComputeDevice) :=
  match platforms with
  | [] => .error .noPlatforms
  | p :: _ => if p.isEmpty then .error .noDevices else .ok p

/-- Device choice in `main` (hasher.py lines 240-246): an explicit
`--device` index is bounds-checked (`args.device < 0 or args.device >=
len(devices)`) and used directly; otherwise `select_best_device` decides.
The `none` fallback of the default branch is unreachable when the device
list is non-empty. -/
def selectDevice (devices : List ComputeDevice) (explicit : Option Int) :
    Except MainError ComputeDevice :=
  match explicit with
  | some i =>
    if h : 0 ≤ i ∧ i < (devices.length : Int) then
      .ok (devices.get ⟨i.toNat, by omega⟩)
    else .error .invalidDevice
  | none =>
    match select_best_device devices with
    | some d => .ok d
    | none => .error .noDevices

/-- The composed device resolution of `main`: enumerate (first platform
only), then select. -/
def resolveDevice (platforms : List (List ComputeDevice)) (explicit : Option Int) :
    Except MainError ComputeDevice :=
  match obtainDevices platforms with
  | .error e => .error e
  | .ok devices => selectDevice devices explicit

/-- Python `f"{i:03d}"`: decimal rendering left-padded with zeros to at
least three characters. -/
def pad3 (i : Nat) : String :=
  let s := toString i
  String.mk (List.replicate (3 - s.length) '0') ++ s

/-- The candidate file name `f"{base_name}_{i:03d}.txt"` of
`generate_unique_filename` (hasher.py line 131). -/
def candidateFilename (base : String) (i : Nat) : String :=
  base ++ "_" ++ pad3 i ++ ".txt"

/-- Path join `os.path.join(directory, filename)` for the absolute
directory `main` passes in. -/
def joinPath (dir filename : String) : String := dir ++ "/" ++ filename

/-- Collision-avoiding output name generation `generate_unique_filename`
(hasher.py lines 129-135): try `i = 0 .. 999` in order, return the first
candidate path for which `os.path.exists` is false, raise after 1000
failures.  The filesystem is abstracted as the predicate `ex` telling
which paths exist. -/
def generate_unique_filename (ex : String → Bool) (base dir : String) :
    Except MainError String :=
  match (List.range 1000).find? (fun i => !(ex (joinPath dir (candidateFilename base i)))) with
  | some i => .ok (joinPath dir (candidateFilename base i))
  | none => .error .outputNameExhausted

/-- One file of a batch: its path together with the outcome of reading its
bytes — `Except.error` models an exception raised for that file (file
read failure or OpenCL failure while processing it). -/
abbrev FileSpec := String × Except String (List Nat)

/-- The hex digest `perform_hashing` computes for one file content: the
kernel is launched on the file bytes with their length, the 20 output
bytes are rendered in hex (hasher.py lines 157-178). -/
def hashFileHex (content : List Nat) : String := sha1KernelHex content

/-- The batch loop `perform_hashing` (hasher.py lines 153-181).  The
`device` argument stands for the `(context, queue, program)` triple: the
kernel source is one fixed string, so the computed digest does not depend
on it.  Files are processed in list order; the loop body has no exception
handler, so the first failing file aborts the whole call and the digests
already accumulated for earlier files are discarded. -/
def perform_hashing (device : ComputeDevice) :
    List FileSpec → Except String (List (String × String))
  | [] => .ok []
  | (_, .error e) :: _ => .error e
  | (p, .ok content) :: rest =>
    match perform_hashing device rest with
    | .ok hs => .ok ((p, hashFileHex content) :: hs)
    | .error e => .error e

/-- The outcome of the batch section of `main` (hasher.py lines 262-281):
either the result rows are written, or the single `except` clause catches
the exception and prints one error message; no per-file isolation exists. -/
inductive BatchOutcome where
  | written (rows : List (String × String))
  | errorMessage (msg : String)
deriving Repr, DecidableEq

/-- The `try`/`except` around `perform_hashing` in `main`
(hasher.py lines 262-281). -/
def mainBatch (device : ComputeDevice) (files : List FileSpec) : BatchOutcome :=
  match perform_hashing device files with
  | .ok hs => .written hs
  | .error e => .errorMessage ("Error during hashing: " ++ e)

/-- A recognized vendor: one the sort key of `select_best_device`
penalizes at equal memory. -/
def recognizedVendor (d : ComputeDevice) : Bool :=
  vendorIsNvidia d || vendorIsAmd d || vendorIsIntel d

/-- Concrete device for witnesses: an unrecognized vendor. -/
def testDevice : ComputeDevice := ⟨"Test Accelerator", "Acme Silicon", 1024⟩

/-- Second concrete device for witnesses. -/
def testDevice2 : ComputeDevice := ⟨"Other Accelerator", "NVIDIA Corporation", 2048⟩

/-- Concrete batch of five files, the third of which fails. -/
def fiveFileBatch : List FileSpec :=
  [("f1", .ok [1]), ("f2", .ok [2]), ("f3", .error "clBuildProgram failed"),
   ("f4", .ok [4]), ("f5", .ok [5])]

set_option maxRecDepth 100000

/-- C1: the kernel digest does NOT always equal the FIPS-180 reference
digest.  At the 56-byte message of `0x61` bytes the kernel writes the
length suffix over bytes 56-63 of its only block, clobbering the `0x80`
marker and skipping the extra padding block FIPS requires, so the two
digests differ. -/
theorem c1_kernel_digest_deviates_from_fips :
    sha1KernelHex (List.replicate 56 97) = "a0bab4a6faa1fea1b78b44d944037b00b8eaae2f" ∧
    sha1ReferenceHex (List.replicate 56 97) = "c2db330f6083854c99d4b5bfb6e8f29f201be699" ∧
    sha1KernelHex (List.replicate 56 97) ≠ sha1ReferenceHex (List.replicate 56 97) := by
  refine ⟨by decide, by decide, by decide⟩

/-- C2: the length field is truncated to 32 bits.  For a message of 2^29
bytes the bit length is 2^32; the kernel computes it in a `uint`, so every
one of the eight suffix bytes it writes is zero — in particular byte 59 of
the final chunk is 0 — while the full 64-bit big-endian encoding required
by the claim has value 1 at that byte (index 3 of the eight-byte field). -/
theorem c2_length_field_truncated_to_32_bits :
    chunkByte (fun _ => 0) 536870912 (536870912 / 64) 59 = 0 ∧
    lengthFieldByte 536870912 59 = 0 ∧
    (refLenBytes 536870912).getD 3 0 = 1 := by
  refine ⟨by decide, by decide, by decide⟩

/-- C4 counterexample: hashing the 3-byte message `abc` does not yield the
39-character string the spec writes; the program renders 40 hex characters
and the digest ends in `d`. -/
theorem c4_spec_vector_for_abc_is_wrong :
    sha1KernelHex [97, 98, 99] ≠ "a9993e364706816aba3e25717850c26c9cd0d89" := by
  decide

/-- C4 amended: hashing zero bytes yields
`da39a3ee5e6b4b0d3255bfef95601890afd80709` and hashing `abc` yields the
40-character digest `a9993e364706816aba3e25717850c26c9cd0d89d`; the spec
literal dropped the final hex digit `d`. -/
theorem c4_known_vectors_amended :
    sha1KernelHex [] = "da39a3ee5e6b4b0d3255bfef95601890afd80709" ∧
    sha1KernelHex [97, 98, 99] = "a9993e364706816aba3e25717850c26c9cd0d89d" := by
  refine ⟨by decide, by decide⟩

/-- C5 counterexample: in a batch of five files whose third file raises,
`perform_hashing` returns only the propagated error — no `DigestResult` of
the other four files survives — and `main` prints a single error message
instead of reporting them alongside the failure. -/
theorem c5_single_failure_aborts_batch :
    perform_hashing testDevice fiveFileBatch = Except.error "clBuildProgram failed" ∧
    mainBatch testDevice fiveFileBatch =
      BatchOutcome.errorMessage "Error during hashing: clBuildProgram failed" := by
  refine ⟨rfl, rfl⟩

/-- C3: the kernel processes exactly `length / 64 + 1` chunks (the loop
`for (chunk_idx = 0; chunk_idx <= length / 64; ...)`), and when the length
is an exact multiple of 64 the final, extra chunk is pure padding: byte 0
is `0x80`, bytes 1 to 55 are zero, and bytes 56 to 63 hold the length
suffix. -/
theorem c3_chunk_count_and_final_padding_block (input : Nat → Nat) (L : Nat) :
    numChunks L = L / 64 + 1 ∧
    (64 ∣ L →
      chunkByte input L (L / 64) 0 = 128 ∧
      (∀ i, 1 ≤ i → i < 56 → chunkByte input L (L / 64) i = 0) ∧
      (∀ i, 56 ≤ i → i < 64 → chunkByte input L (L / 64) i = lengthFieldByte L i)) := by
  refine ⟨rfl, fun hdvd => ?_⟩
  obtain ⟨k, rfl⟩ := hdvd
  have hdiv : 64 * k / 64 = k := by omega
  refine ⟨?_, ?_, ?_⟩
  · simp only [chunkByte]
    rw [if_neg (by omega), if_neg (by omega), if_pos (by omega)]
  · intro i h1 h2
    simp only [chunkByte]
    rw [if_neg (by omega), if_neg (by omega), if_neg (by omega)]
  · intro i h1 h2
    simp only [chunkByte]
    rw [if_pos ⟨trivial, h1⟩]

/-- C3 witness: the concrete multiple-of-64 length 64, with an input that
is 7 everywhere, instantiating each part of the theorem. -/
theorem c3_chunk_count_witness :
    numChunks 64 = 64 / 64 + 1 ∧
    chunkByte (fun _ => 7) 64 (64 / 64) 0 = 128 ∧
    chunkByte (fun _ => 7) 64 (64 / 64) 10 = 0 ∧
    chunkByte (fun _ => 7) 64 (64 / 64) 60 = lengthFieldByte 64 60 := by
  obtain ⟨h1, h2⟩ := c3_chunk_count_and_final_padding_block (fun _ => 7) 64
  obtain ⟨ha, hb, hc⟩ := h2 (by decide)
  exact ⟨h1, ha, hb 10 (by decide) (by decide), hc 60 (by decide) (by decide)⟩

/-- C8: when the default output path exists, the alternate name generator
tries at most the 1000 candidates `output_000.txt` to `output_999.txt`;
a returned path is always one of these candidates and does not exist (so
nothing is overwritten), and the error is raised exactly when all 1000
candidates exist. -/
theorem c8_unique_filename (ex : String → Bool) (base dir : String) :
    (∀ p, generate_unique_filename ex base dir = .ok p →
      ex p = false ∧ ∃ i, i < 1000 ∧ p = joinPath dir (candidateFilename base i)) ∧
    (generate_unique_filename ex base dir = .error .outputNameExhausted ↔
      ∀ i, i < 1000 → ex (joinPath dir (candidateFilename base i)) = true) := by
  constructor
  · intro p hp
    unfold generate_unique_filename at hp
    cases hfind : (List.range 1000).find?
        (fun i => !(ex (joinPath dir (candidateFilename base i)))) with
    | none => rw [hfind] at hp; exact absurd hp (by simp)
    | some i =>
      rw [hfind] at hp
      cases hp
      have hmem := List.mem_of_find?_eq_some hfind
      have hpred := List.find?_some hfind
      refine ⟨by simpa using hpred, i, List.mem_range.mp hmem, rfl⟩
  · unfold generate_unique_filename
    cases hfind : (List.range 1000).find?
        (fun i => !(ex (joinPath dir (candidateFilename base i)))) with
    | none =>
      have hall := List.find?_eq_none.mp hfind
      refine ⟨fun _ i hi => ?_, fun _ => rfl⟩
      have hx := hall i (List.mem_range.mpr hi)
      simpa using hx
    | some i =>
      have hmem := List.mem_of_find?_eq_some hfind
      have hpred := List.find?_some hfind
      refine ⟨fun h => absurd h (by simp), fun hall => ?_⟩
      have h1 : ex (joinPath dir (candidateFilename base i)) = true :=
        hall i (List.mem_range.mp hmem)
      simp [h1] at hpred

/-- C8 witness: on an empty filesystem the first candidate
`/work/output_000.txt` is returned and does not exist; on a filesystem
where every path exists the generator fails with the exhaustion error. -/
theorem c8_unique_filename_witness :
    ((fun _ => false : String → Bool) "/work/output_000.txt" = false ∧
      ∃ i, i < 1000 ∧ "/work/output_000.txt" = joinPath "/work" (candidateFilename "output" i)) ∧
    generate_unique_filename (fun _ => true) "output" "/work" =
      .error .outputNameExhausted := by
  constructor
  · exact (c8_unique_filename (fun _ => false) "output" "/work").1 "/work/output_000.txt" rfl
  · exact (c8_unique_filename (fun _ => true) "output" "/work").2.mpr (fun i _ => rfl)

/-- Reflexivity of the sort comparison. -/
theorem devRel_refl (a : ComputeDevice) : devRel a a := le_refl (sortKeyInt a)

/-- Bounds of one vendor bit of the sort key. -/
theorem cond_bit_bounds (b : Bool) (n : Int) (hn : 0 ≤ n) :
    0 ≤ (cond b n 0) ∧ (cond b n 0) ≤ n := by
  cases b <;> simp [hn]

/-- A zero vendor bit with positive weight means the flag is false. -/
theorem cond_eq_zero_false (b : Bool) (n : Int) (hn : 0 < n) (h : cond b n 0 = 0) :
    b = false := by
  cases b
  · rfl
  · simp only [cond_true] at h
    omega

/-- An unrecognized vendor contributes zero to every bit of the key. -/
theorem recognized_false_bits (d : ComputeDevice) (h : recognizedVendor d = false) :
    (cond (vendorIsNvidia d) (4 : Int) 0) = 0 ∧ (cond (vendorIsAmd d) (2 : Int) 0) = 0 ∧
    (cond (vendorIsIntel d) (1 : Int) 0) = 0 := by
  simp only [recognizedVendor, Bool.or_eq_false_iff] at h
  obtain ⟨⟨h1, h2⟩, h3⟩ := h
  rw [h1, h2, h3]
  simp

/-- A smaller sort key means at least as much memory: the negated memory,
weighted by 8, dominates the vendor bits, which lie in `[0, 8)`. -/
theorem devRel_mem_le (a b : ComputeDevice) (h : devRel a b) :
    b.global_mem_size ≤ a.global_mem_size := by
  unfold devRel sortKeyInt at h
  have ha1 := cond_bit_bounds (vendorIsNvidia a) 4 (by omega)
  have ha2 := cond_bit_bounds (vendorIsAmd a) 2 (by omega)
  have ha3 := cond_bit_bounds (vendorIsIntel a) 1 (by omega)
  have hb1 := cond_bit_bounds (vendorIsNvidia b) 4 (by omega)
  have hb2 := cond_bit_bounds (vendorIsAmd b) 2 (by omega)
  have hb3 := cond_bit_bounds (vendorIsIntel b) 1 (by omega)
  omega

/-- At equal memory, a key at most the key of an unrecognized-vendor
device forces an unrecognized vendor as well: every recognized vendor
contributes a positive bit to the key. -/
theorem devRel_unrecognized (a b : ComputeDevice)
    (hmem : a.global_mem_size = b.global_mem_size)
    (hb : recognizedVendor b = false) (h : devRel a b) :
    recognizedVendor a = false := by
  obtain ⟨hbb1, hbb2, hbb3⟩ := recognized_false_bits b hb
  unfold devRel sortKeyInt at h
  rw [hbb1, hbb2, hbb3] at h
  have ha1 := cond_bit_bounds (vendorIsNvidia a) 4 (by omega)
  have ha2 := cond_bit_bounds (vendorIsAmd a) 2 (by omega)
  have ha3 := cond_bit_bounds (vendorIsIntel a) 1 (by omega)
  have e1 : (cond (vendorIsNvidia a) (4 : Int) 0) = 0 := by omega
  have e2 : (cond (vendorIsAmd a) (2 : Int) 0) = 0 := by omega
  have e3 : (cond (vendorIsIntel a) (1 : Int) 0) = 0 := by omega
  have f1 := cond_eq_zero_false (vendorIsNvidia a) 4 (by omega) e1
  have f2 := cond_eq_zero_false (vendorIsAmd a) 2 (by omega) e2
  have f3 := cond_eq_zero_false (vendorIsIntel a) 1 (by omega) e3
  simp [recognizedVendor, f1, f2, f3]

/-- The sorted device list is pairwise ordered by the sort key. -/
theorem sortedDevices_sorted (devices : List ComputeDevice) :
    List.Sorted devRel (sortedDevices devices) :=
  List.sorted_insertionSort devRel devices

/-- Core property of `select_best_device`: on a non-empty catalog it
returns the head of the sorted list, which belongs to the catalog and is
key-minimal among all catalog members. -/
theorem select_best_device_spec (devices : List ComputeDevice) (hne : devices ≠ []) :
    ∃ d, select_best_device devices = some d ∧ d ∈ devices ∧
      ∀ x ∈ devices, devRel d x := by
  unfold select_best_device
  cases hs : sortedDevices devices with
  | nil =>
    exfalso
    apply hne
    have hperm := List.perm_insertionSort devRel devices
    rw [show devices.insertionSort devRel = sortedDevices devices from rfl, hs] at hperm
    exact hperm.symm.eq_nil
  | cons d t =>
    refine ⟨d, rfl, ?_, ?_⟩
    · have hd : d ∈ devices.insertionSort devRel := by
        rw [show devices.insertionSort devRel = sortedDevices devices from rfl, hs]
        exact List.mem_cons_self d t
      exact (List.mem_insertionSort devRel).mp hd
    · intro x hx
      have hxs : x ∈ sortedDevices devices := (List.mem_insertionSort devRel).mpr hx
      rw [hs] at hxs
      have hsorted := sortedDevices_sorted devices
      rw [hs] at hsorted
      rcases List.mem_cons.mp hxs with rfl | hxt
      · exact devRel_refl x
      · exact (List.sorted_cons.mp hsorted).1 x hxt

/-- The device returned by `select_best_device` belongs to the catalog. -/
theorem select_best_device_mem (devices : List ComputeDevice) (d : ComputeDevice)
    (h : select_best_device devices = some d) : d ∈ devices := by
  unfold select_best_device at h
  have hd : d ∈ sortedDevices devices := List.mem_of_mem_head? h
  exact (List.mem_insertionSort devRel).mp hd

/-- A successful device selection always returns a member of the catalog. -/
theorem selectDevice_ok_mem (devices : List ComputeDevice) (explicit : Option Int)
    (d : ComputeDevice) (h : selectDevice devices explicit = .ok d) : d ∈ devices := by
  cases explicit with
  | some i =>
    simp only [selectDevice] at h
    split at h
    · cases h
      exact List.get_mem devices _ _
    · exact absurd h (by simp)
  | none =>
    simp only [selectDevice] at h
    split at h
    · cases h
      exact select_best_device_mem devices _ (by assumption)
    · exact absurd h (by simp)

/-- C6: with an in-range explicit index, selection returns exactly the
device at that index regardless of memory ranking; an out-of-range
explicit index fails with the invalid-device error; with no explicit
index, selection returns a catalog device of maximal memory size; and on
a concrete catalog with memories 1, 2, 4 the memory-4 device is chosen. -/
theorem c6_device_selection (devices : List ComputeDevice) (hne : devices ≠ []) :
    (∀ (i : Int) (d : ComputeDevice), 0 ≤ i → devices[i.toNat]? = some d →
      selectDevice devices (some i) = .ok d) ∧
    (∀ i : Int, i < 0 ∨ (devices.length : Int) ≤ i →
      selectDevice devices (some i) = .error .invalidDevice) ∧
    (∃ d, selectDevice devices none = .ok d ∧ d ∈ devices ∧
      ∀ x ∈ devices, x.global_mem_size ≤ d.global_mem_size) ∧
    selectDevice
      [⟨"dev-a", "acme", 1⟩, ⟨"dev-b", "acme", 2⟩, ⟨"dev-c", "acme", 4⟩] none =
      .ok ⟨"dev-c", "acme", 4⟩ := by
  refine ⟨?_, ?_, ?_, ?_⟩
  · intro i d h0 hget
    have hlt : i.toNat < devices.length := by
      by_contra hcon
      rw [List.getElem?_eq_none (by omega)] at hget
      exact Option.noConfusion hget
    simp only [selectDevice]
    rw [dif_pos ⟨h0, by omega⟩]
    rw [List.getElem?_eq_getElem hlt] at hget
    simp only [List.get_eq_getElem]
    exact congrArg Except.ok (Option.some.inj hget)
  · intro i hout
    simp only [selectDevice]
    rw [dif_neg (by omega)]
  · obtain ⟨d, hd, hmem, hmin⟩ := select_best_device_spec devices hne
    refine ⟨d, ?_, hmem, fun x hx => devRel_mem_le d x (hmin x hx)⟩
    simp only [selectDevice]
    rw [hd]
  · rfl

/-- C6 witness: the concrete two-device catalog, with an in-range index,
an out-of-range index, and the default selection. -/
theorem c6_device_selection_witness :
    selectDevice [testDevice, testDevice2] (some 1) = .ok testDevice2 ∧
    selectDevice [testDevice, testDevice2] (some 5) = .error .invalidDevice ∧
    (∃ d, selectDevice [testDevice, testDevice2] none = .ok d ∧
      d ∈ [testDevice, testDevice2] ∧
      ∀ x ∈ [testDevice, testDevice2], x.global_mem_size ≤ d.global_mem_size) := by
  obtain ⟨h1, h2, h3, _⟩ := c6_device_selection [testDevice, testDevice2] (by simp)
  exact ⟨h1 1 testDevice2 (by decide) (by decide), h2 5 (Or.inr (by decide)), h3⟩

/-- C7 counterexample: with two platforms, the first exposing no devices
and the second exposing one, the flattened catalog is non-empty yet the
program fails with the no-devices error, so enumeration does not fail
exactly when the flattened list is empty and does not flatten platforms. -/
theorem c7_first_platform_empty_fails :
    obtainDevices [[], [testDevice]] = .error .noDevices ∧
    ([[], [testDevice]] : List (List ComputeDevice)).flatten ≠ [] :=
  ⟨rfl, by simp⟩

/-- C7 amended: `main` consults only the first platform: an empty
platform list yields the no-platforms error; an empty first device list
yields the no-devices error even when later platforms have devices;
otherwise exactly the first platform's device list is used, and a
successful device selection picks a device of the first platform. -/
theorem c7_first_platform_only (p0 : List ComputeDevice)
    (rest : List (List ComputeDevice)) (explicit : Option Int) (d : ComputeDevice) :
    obtainDevices [] = .error .noPlatforms ∧
    (p0 = [] → obtainDevices (p0 :: rest) = .error .noDevices) ∧
    (p0 ≠ [] → obtainDevices (p0 :: rest) = .ok p0) ∧
    (resolveDevice (p0 :: rest) explicit = .ok d → d ∈ p0) := by
  refine ⟨rfl, ?_, ?_, ?_⟩
  · rintro rfl; rfl
  · intro hne
    simp only [obtainDevices]
    rw [if_neg (by simpa using hne)]
  · intro hres
    simp only [resolveDevice] at hres
    cases hob : obtainDevices (p0 :: rest) with
    | error e => rw [hob] at hres; exact absurd hres (by simp)
    | ok devs =>
      rw [hob] at hres
      simp only [obtainDevices] at hob
      by_cases hp : p0.isEmpty
      · rw [if_pos hp] at hob; exact absurd hob (by simp)
      · rw [if_neg hp] at hob
        cases hob
        exact selectDevice_ok_mem p0 explicit d (by simpa using hres)

/-- C7 witness: a single non-empty platform, default selection. -/
theorem c7_first_platform_only_witness :
    obtainDevices [[testDevice]] = .ok [testDevice] ∧ testDevice ∈ [testDevice] := by
  obtain ⟨_, _, h3, h4⟩ := c7_first_platform_only [testDevice] [] none testDevice
  exact ⟨h3 (by simp), h4 (by rfl)⟩

/-- C10: in the sorted order used by default selection, a device whose
lowercase vendor starts with nvidia, amd, or intel never precedes an
equal-memory device whose vendor starts with none of these; consequently
when the selected device shares its memory size with an
unrecognized-vendor catalog device, the selected device itself has an
unrecognized vendor. -/
theorem c10_vendor_tiebreak (devices : List ComputeDevice) :
    (∀ i j (hi : i < (sortedDevices devices).length)
      (hj : j < (sortedDevices devices).length), i < j →
      ((sortedDevices devices)[i]).global_mem_size =
        ((sortedDevices devices)[j]).global_mem_size →
      recognizedVendor ((sortedDevices devices)[j]) = false →
      recognizedVendor ((sortedDevices devices)[i]) = false) ∧
    (∀ d u, select_best_device devices = some d → u ∈ devices →
      recognizedVendor u = false → u.global_mem_size = d.global_mem_size →
      recognizedVendor d = false) := by
  constructor
  · intro i j hi hj hij hmem hrec
    have hrel : devRel ((sortedDevices devices)[i]) ((sortedDevices devices)[j]) :=
      List.pairwise_iff_getElem.mp (sortedDevices_sorted devices) i j hi hj hij
    exact devRel_unrecognized _ _ hmem hrec hrel
  · intro d u hd hu hurec humem
    have hne : devices ≠ [] := by
      rintro rfl
      simp [select_best_device, sortedDevices] at hd
    obtain ⟨d0, hd0, _, hmin⟩ := select_best_device_spec devices hne
    rw [hd0] at hd
    cases hd
    exact devRel_unrecognized _ u humem.symm hurec (hmin u hu)

/-- C10 witness: at a memory tie of 2048 between an NVIDIA device and an
unrecognized-vendor device, the selected device has the unrecognized
vendor. -/
theorem c10_vendor_tiebreak_witness :
    recognizedVendor ⟨"AX", "Acme Silicon", 2048⟩ = false :=
  (c10_vendor_tiebreak [testDevice2, ⟨"AX", "Acme Silicon", 2048⟩]).2
    ⟨"AX", "Acme Silicon", 2048⟩ ⟨"AX", "Acme Silicon", 2048⟩ (by decide) (by simp)
    (by decide) rfl

/-- Helper for C5: a failing file anywhere in the batch makes
`perform_hashing` return exactly that first failure, provided every file
before it reads successfully. -/
theorem perform_hashing_append_error (device : ComputeDevice)
    (pre post : List FileSpec) (p e : String) :
    (∀ f ∈ pre, (f : FileSpec).2.isOk = true) →
    perform_hashing device (pre ++ (p, Except.error e) :: post) = Except.error e := by
  induction pre with
  | nil => intro _; rfl
  | cons f rest ih =>
    intro hpre
    obtain ⟨fp, fc⟩ := f
    have hok : fc.isOk = true := hpre (fp, fc) (by simp)
    cases fc with
    | error e2 => simp [Except.isOk, Except.toBool] at hok
    | ok content =>
      have ih2 := ih (fun g hg => hpre g (by simp [hg]))
      simp only [List.cons_append, perform_hashing, List.append_eq]
      rw [ih2]

/-- C5 amended: a failure while hashing one file aborts the whole batch:
`perform_hashing` propagates the first exception, the digests of every
other file (including those already computed) are discarded, and `main`
prints a single error message; there is no per-file isolation and no
accumulation of failures alongside successes. -/
theorem c5_failure_aborts_whole_batch (device : ComputeDevice)
    (pre post : List FileSpec) (p e : String)
    (hpre : ∀ f ∈ pre, (f : FileSpec).2.isOk = true) :
    perform_hashing device (pre ++ (p, Except.error e) :: post) = Except.error e ∧
    mainBatch device (pre ++ (p, Except.error e) :: post) =
      BatchOutcome.errorMessage ("Error during hashing: " ++ e) := by
  have hmain := perform_hashing_append_error device pre post p e hpre
  refine ⟨hmain, ?_⟩
  unfold mainBatch
  rw [hmain]

/-- C5 witness: the five-file batch with the third file failing. -/
theorem c5_failure_aborts_witness :
    perform_hashing testDevice
      ([("f1", Except.ok [1]), ("f2", Except.ok [2])] ++
        ("f3", Except.error "clBuildProgram failed") ::
          [("f4", Except.ok [4]), ("f5", Except.ok [5])]) =
      Except.error "clBuildProgram failed" ∧
    mainBatch testDevice
      ([("f1", Except.ok [1]), ("f2", Except.ok [2])] ++
        ("f3", Except.error "clBuildProgram failed") ::
          [("f4", Except.ok [4]), ("f5", Except.ok [5])]) =
      BatchOutcome.errorMessage "Error during hashing: clBuildProgram failed" :=
  c5_failure_aborts_whole_batch testDevice
    [("f1", Except.ok [1]), ("f2", Except.ok [2])]
    [("f4", Except.ok [4]), ("f5", Except.ok [5])]
    "f3" "clBuildProgram failed" (by decide)

/-- Helper for C9: elementwise description of a successful batch — the
row at position `i` pairs the file's path with the kernel hex digest of
its byte content, independently of the rest of the batch. -/
theorem perform_hashing_getElem (device : ComputeDevice) (files : List FileSpec)
    (r : List (String × String)) (h : perform_hashing device files = .ok r)
    (i : Nat) (p : String) (c : List Nat) (hi : files[i]? = some (p, Except.ok c)) :
    r[i]? = some (p, hashFileHex c) := by
  induction files generalizing r i with
  | nil => simp at hi
  | cons f rest ih =>
    obtain ⟨fp, fc⟩ := f
    cases fc with
    | error e => exact absurd h (by simp [perform_hashing])
    | ok content =>
      simp only [perform_hashing] at h
      cases hr : perform_hashing device rest with
      | error e => rw [hr] at h; exact absurd h (by simp)
      | ok hs =>
        rw [hr] at h
        cases h
        cases i with
        | zero =>
          simp only [List.getElem?_cons_zero, Option.some.injEq, Prod.mk.injEq] at hi
          obtain ⟨rfl, hc⟩ := hi
          obtain rfl : content = c := by
            cases hc.symm
            rfl
          simp
        | succ n =>
          simp only [List.getElem?_cons_succ] at hi ⊢
          exact ih hs hr n hi

/-- C9: the digest is a pure function of file byte content: across two
runs on possibly different devices, with possibly different batches and
processing orders, any two files with identical bytes receive the
identical digest — both result rows carry the kernel hex digest of those
bytes. -/
theorem c9_digest_pure_function (d1 d2 : ComputeDevice)
    (fs1 fs2 : List FileSpec) (r1 r2 : List (String × String))
    (h1 : perform_hashing d1 fs1 = .ok r1) (h2 : perform_hashing d2 fs2 = .ok r2)
    (i j : Nat) (p1 p2 : String) (c : List Nat)
    (hi : fs1[i]? = some (p1, Except.ok c)) (hj : fs2[j]? = some (p2, Except.ok c)) :
    r1[i]? = some (p1, hashFileHex c) ∧ r2[j]? = some (p2, hashFileHex c) :=
  ⟨perform_hashing_getElem d1 fs1 r1 h1 i p1 c hi,
   perform_hashing_getElem d2 fs2 r2 h2 j p2 c hj⟩

/-- C9 witness: the same three bytes hashed on two different devices, in
two different batches at two different positions, give the same digest
row. -/
theorem c9_digest_pure_function_witness :
    ([("x", hashFileHex [97, 98, 99])] : List (String × String))[0]? =
      some ("x", hashFileHex [97, 98, 99]) ∧
    ([("pre", hashFileHex []), ("y", hashFileHex [97, 98, 99])] :
      List (String × String))[1]? = some ("y", hashFileHex [97, 98, 99]) :=
  c9_digest_pure_function testDevice testDevice2
    [("x", Except.ok [97, 98, 99])]
    [("pre", Except.ok []), ("y", Except.ok [97, 98, 99])]
    [("x", hashFileHex [97, 98, 99])]
    [("pre", hashFileHex []), ("y", hashFileHex [97, 98, 99])]
    rfl rfl 0 1 "x" "y" [97, 98, 99] rfl rfl

end Hasher
